import Mathlib

/-!
Shallow embedding of the hybrid file-storage orchestration layer
(`StorageManager`, `R2StorageService`, `LocalStorageService`).

The JavaScript classes are translated into pure Lean functions.  Stateful
pieces (the location cache `Map`, the availability record, timestamps from
`Date.now()`) are passed and returned explicitly.  Fallible operations
return `Except`.  The raw backend drivers (the S3 client and the
filesystem) are abstracted as injected outcomes (`Except String _`), which
is exactly the boundary the orchestration code observes.
-/

set_option autoImplicit false

/-- The two storage backends: the remote object store (`'r2'`) and the
local filesystem (`'local'`). -/
inductive Backend where
  | r2
  | loc
deriving DecidableEq, Repr

/-- The configured storage mode string: `'hybrid'`, `'r2-only'` or
`'local-only'` (`R2Config.getStorageMode`). -/
inductive StorageMode where
  | hybrid
  | r2Only
  | localOnly
deriving DecidableEq, Repr

/-- A value of the location cache `Map`: the entry stored by
`StorageManager.cacheFileLocation` (`{ location, timestamp: Date.now() }`). -/
structure CacheEntry where
  location : Backend
  timestamp : Nat
deriving DecidableEq, Repr

/-- The location cache: a JavaScript `Map` in insertion order, oldest
entry first (head of the list). -/
abbrev LocCache := List (String × CacheEntry)

/-- The cache key built in `cacheFileLocation` / `getCachedFileLocation` /
`deleteFile`: the template string `` `${userId}:${filename}:${isAvatar}` ``. -/
def cacheKey (userId filename : String) (isAvatar : Bool) : String :=
  userId ++ ":" ++ filename ++ ":" ++ (if isAvatar then "true" else "false")

/-- JavaScript `Map.set`: overwrite the value of an existing key in place
(insertion order is preserved), otherwise append a brand new entry. -/
def mapSet : LocCache → String → CacheEntry → LocCache
  | [], k, v => [(k, v)]
  | p :: t, k, v => if p.1 = k then (k, v) :: t else p :: mapSet t k v

/-- JavaScript `Map.delete`: remove the entry with the given key. -/
def mapDelete (c : LocCache) (k : String) : LocCache :=
  c.filter (fun p => decide (p.1 ≠ k))

/-- JavaScript `Map.get`: the value of the entry with the given key. -/
def mapGet (c : LocCache) (k : String) : Option CacheEntry :=
  (c.find? (fun p => decide (p.1 = k))).map Prod.snd

/-- Core of `StorageManager.cacheFileLocation`, after the key string has
been built: `locationCache.set(key, value)`, then if the size exceeds 1000
delete the first (oldest-inserted) key. -/
def cacheRecordKey (c : LocCache) (k : String) (v : CacheEntry) : LocCache :=
  let c2 := mapSet c k v
  if 1000 < c2.length then
    match c2 with
    | [] => c2
    | p :: _ => mapDelete c2 p.1
  else c2

/-- `StorageManager.cacheFileLocation(userId, filename, isAvatar, location)`
with `Date.now()` passed in as `now`. -/
def cacheFileLocation (c : LocCache) (userId filename : String) (isAvatar : Bool)
    (location : Backend) (now : Nat) : LocCache :=
  cacheRecordKey c (cacheKey userId filename isAvatar) ⟨location, now⟩

/-- `StorageManager.getCachedFileLocation`: look the key up; a missing
entry gives `null`; an entry older than 5 minutes (300000 ms) is deleted
and gives `null`; otherwise the cached location is returned.  The second
component is the cache after the possible stale-entry deletion. -/
def getCachedFileLocation (c : LocCache) (userId filename : String) (isAvatar : Bool)
    (now : Nat) : Option Backend × LocCache :=
  let k := cacheKey userId filename isAvatar
  match mapGet c k with
  | none => (none, c)
  | some e =>
    if 300000 < now - e.timestamp then (none, mapDelete c k)
    else (some e.location, c)

/-- The availability state owned by `StorageManager`: the fields
`r2Available` and `lastR2Check` (`null` modelled as `none`). -/
structure AvailState where
  r2Available : Bool
  lastR2Check : Option Nat
deriving DecidableEq, Repr

/-- Outcome of one `isR2Available()` call: the returned boolean, the state
after the call, and whether an actual probe (`r2Storage.checkConnection`)
was issued. -/
structure AvailOutcome where
  value : Bool
  state : AvailState
  probed : Bool
deriving DecidableEq, Repr

/-- `this.r2CheckInterval = 60000`. -/
def r2CheckInterval : Nat := 60000

/-- `StorageManager.isR2Available()`.  `configured` models
`this.r2Storage && this.r2Config.isR2Enabled()`; `probe` models the
outcome of `await this.r2Storage.checkConnection()` (a thrown exception is
`.error`); `now` models `Date.now()`.  The JavaScript guard
`this.lastR2Check && (Date.now() - this.lastR2Check) < this.r2CheckInterval`
tests the stored millisecond timestamp for truthiness, hence the `t ≠ 0`
conjunct. -/
def isR2Available (st : AvailState) (configured : Bool) (probe : Except String Bool)
    (now : Nat) : AvailOutcome :=
  match st.lastR2Check with
  | some t =>
    if t ≠ 0 ∧ now - t < r2CheckInterval then
      ⟨st.r2Available, st, false⟩
    else isR2AvailableFresh configured probe now
  | none => isR2AvailableFresh configured probe now
where
  /-- The part of `isR2Available` past the freshness guard. -/
  isR2AvailableFresh (configured : Bool) (probe : Except String Bool) (now : Nat) :
      AvailOutcome :=
    if ¬ configured then ⟨false, ⟨false, some now⟩, false⟩
    else
      match probe with
      | .ok b => ⟨b, ⟨b, some now⟩, true⟩
      | .error _ => ⟨false, ⟨false, some now⟩, true⟩

/-- `StorageManager.determineRetrievalOrder(cachedLocation, forceLocal)`,
with the configured mode (read inside via `r2Config.getStorageMode()`)
passed explicitly. -/
def determineRetrievalOrder (cachedLocation : Option Backend) (forceLocal : Bool)
    (configMode : StorageMode) : List Backend :=
  if forceLocal then [Backend.loc]
  else
    match cachedLocation with
    | some Backend.r2 =>
      if configMode = StorageMode.localOnly then [Backend.loc]
      else [Backend.r2, Backend.loc]
    | some Backend.loc =>
      if configMode = StorageMode.r2Only then [Backend.r2]
      else [Backend.loc, Backend.r2]
    | none =>
      match configMode with
      | StorageMode.r2Only => [Backend.r2]
      | StorageMode.localOnly => [Backend.loc]
      | StorageMode.hybrid => [Backend.r2, Backend.loc]

/-- A JavaScript error as the retry wrapper observes it: the `name`
(error class, e.g. `'NoSuchKey'`) and the `message`. -/
structure JsError where
  name : String
  message : String
deriving DecidableEq, Repr

/-- `R2StorageService.retryOperation`'s terminal error classes:
`['NoSuchKey', 'AccessDenied', 'InvalidAccessKeyId', 'SignatureDoesNotMatch']`. -/
def nonRetryableErrors : List String :=
  ["NoSuchKey", "AccessDenied", "InvalidAccessKeyId", "SignatureDoesNotMatch"]

/-- The `for (attempt = 1; attempt <= maxRetries; attempt++)` loop of
`R2StorageService.retryOperation`.  `op attempt` is the outcome of the
wrapped operation on that attempt.  The result carries the list of
backoff delays slept (`baseDelay * 2^(attempt-1)` before each retry).
`fuel` bounds the remaining loop iterations; it starts at `maxRetries`
and the `attempt == maxRetries` check fires before it can run out, so the
`fuel = 0` case is unreachable for `maxRetries ≥ 1` (it models falling out
of the loop, where the JavaScript re-throws `lastError`). -/
def retryGo {α : Type} (op : Nat → Except JsError α) (maxRetries baseDelay : Nat) :
    Nat → Nat → Except JsError α × List Nat
  | _, 0 => (.error ⟨"", "loop exhausted"⟩, [])
  | attempt, fuel + 1 =>
    match op attempt with
    | .ok a => (.ok a, [])
    | .error e =>
      if nonRetryableErrors.contains e.name then (.error e, [])
      else if attempt = maxRetries then (.error e, [])
      else
        let d := baseDelay * 2 ^ (attempt - 1)
        let r := retryGo op maxRetries baseDelay (attempt + 1) fuel
        (r.1, d :: r.2)

/-- `R2StorageService.retryOperation(operation, maxRetries = 3, baseDelay = 1000)`. -/
def retryOperation {α : Type} (op : Nat → Except JsError α) (maxRetries baseDelay : Nat) :
    Except JsError α × List Nat :=
  retryGo op maxRetries baseDelay 1 maxRetries

/-- The character class kept by the sanitizer regex `[^a-zA-Z0-9.-]` in
`R2StorageService.generateFileKey`. -/
def isAllowedKeyChar (c : Char) : Bool :=
  (decide ('a' ≤ c) && decide (c ≤ 'z')) ||
  (decide ('A' ≤ c) && decide (c ≤ 'Z')) ||
  (decide ('0' ≤ c) && decide (c ≤ '9')) ||
  decide (c = '.') || decide (c = '-')

/-- `filename.replace(/[^a-zA-Z0-9.-]/g, '_')`. -/
def sanitizeFilename (f : String) : String :=
  String.mk (f.data.map (fun c => if isAllowedKeyChar c then c else '_'))

/-- `R2StorageService.getUserFolderPath`: throws when `userId` is falsy,
else returns `` `user-${userId}/` ``. -/
def getUserFolderPath (userId : String) : Except String String :=
  if userId = "" then .error "User ID is required for file organization"
  else .ok ("user-" ++ userId ++ "/")

/-- `R2StorageService.generateFileKey(userId, filename, isAvatar)`. -/
def generateFileKey (userId filename : String) (isAvatar : Bool) : Except String String :=
  match getUserFolderPath userId with
  | .error e => .error e
  | .ok folderPath =>
    if isAvatar then .ok (folderPath ++ "avatar.png")
    else .ok (folderPath ++ sanitizeFilename filename)

/-- Number of occurrences of a character in a string. -/
def countChar (s : String) (c : Char) : Nat :=
  s.data.count c

/-- `String.prototype.includes`: whether `pat` occurs inside `s`
(used by the orchestrator as `error.message.includes('File not found')`). -/
def containsSub : List Char → List Char → Bool
  | l, pat =>
    if pat.isPrefixOf l then true
    else
      match l with
      | [] => false
      | _ :: t => containsSub t pat

/-- `s.includes(pat)` on strings. -/
def strIncludes (s pat : String) : Bool :=
  containsSub s.data pat.data

/-- `StorageManager.determineUploadStorage(forceLocal)`: pick a primary
backend or throw.  `r2Avail` models `await this.isR2Available()` (only
consulted for the `'r2-only'` and `'hybrid'` modes, as in the source). -/
def determineUploadStorage (configMode : StorageMode) (r2Avail : Bool)
    (forceLocal : Bool) : Except String Backend :=
  if forceLocal then .ok Backend.loc
  else if configMode = StorageMode.localOnly then .ok Backend.loc
  else if configMode = StorageMode.r2Only then
    if r2Avail then .ok Backend.r2
    else .error "R2 storage is not available and local storage is disabled"
  else
    if r2Avail then .ok Backend.r2 else .ok Backend.loc

/-- The storage-related annotations `uploadFile` places on a successful
result: `storageLocation`, `fallbackUsed`, and (when a fallback happened)
`primaryError`. -/
structure UploadResult where
  storageLocation : Backend
  fallbackUsed : Bool
  primaryError : Option String
deriving DecidableEq, Repr

/-- A failed `StorageManager.uploadFile`: either a single propagated error
message, or the combined error built when both the primary and the
fallback `put` failed. -/
inductive UploadFailure where
  | err (msg : String)
  | combined (primaryMsg fallbackMsg : String)
deriving DecidableEq, Repr

/-- `StorageManager.uploadFile(userId, fileData, filename, options)`.
`r2Put` / `localPut` model the outcomes of `r2Storage.uploadFile` and
`localStorage.uploadFile` for this request; the returned list records, in
order, the backends on which a `put` was actually executed.  `fileData`
itself cannot be `null` in the typed embedding, so the `!fileData`
validation reduces to the `!filename` check. -/
def uploadFile (configMode : StorageMode) (r2Avail : Bool)
    (r2Put localPut : Except String Unit) (cache : LocCache)
    (userId filename : String) (isAvatar forceLocal : Bool) (now : Nat) :
    Except UploadFailure UploadResult × List Backend × LocCache :=
  if userId = "" then
    (.error (.err "User ID is required for file uploads"), [], cache)
  else if filename = "" then
    (.error (.err "File data and filename are required"), [], cache)
  else
    match determineUploadStorage configMode r2Avail forceLocal with
    | .error e => (.error (.err e), [], cache)
    | .ok Backend.r2 =>
      match r2Put with
      | .ok _ =>
        (.ok ⟨Backend.r2, false, none⟩, [Backend.r2],
          cacheFileLocation cache userId filename isAvatar Backend.r2 now)
      | .error primaryError =>
        if configMode = StorageMode.hybrid then
          match localPut with
          | .ok _ =>
            (.ok ⟨Backend.loc, true, some primaryError⟩, [Backend.r2, Backend.loc],
              cacheFileLocation cache userId filename isAvatar Backend.loc now)
          | .error fallbackError =>
            (.error (.combined primaryError fallbackError), [Backend.r2, Backend.loc], cache)
        else (.error (.err primaryError), [Backend.r2], cache)
    | .ok Backend.loc =>
      match localPut with
      | .ok _ =>
        (.ok ⟨Backend.loc, false, none⟩, [Backend.loc],
          cacheFileLocation cache userId filename isAvatar Backend.loc now)
      | .error primaryError => (.error (.err primaryError), [Backend.loc], cache)

/-- The storage annotations `getFile` places on a successful result. -/
structure GetResult where
  storageLocation : Backend
  fallbackUsed : Bool
  primaryError : Option String
deriving DecidableEq, Repr

/-- A failed `StorageManager.getFile`: a validation error thrown before
the search, or the `` `File not found: ${filename}` `` error thrown after
the search order is exhausted (annotated with the searched locations and
the first-seen error). -/
inductive GetError where
  | validation (msg : String)
  | notFound (filename : String) (searchedLocations : List Backend)
      (primaryError : Option String)
deriving DecidableEq, Repr

/-- The `message` of a `GetError` as seen by `error.message` in callers. -/
def GetError.message : GetError → String
  | .validation m => m
  | .notFound f _ _ => "File not found: " ++ f

/-- The `for (const storageType of searchOrder)` loop of
`StorageManager.getFile`.  `readOf b` is the outcome of the underlying
read on backend `b` (`r2Storage.downloadFile` / `getFileStream` or
`localStorage.getFile` / `getFileStream`).  An `'r2'` entry is skipped
when R2 is not available.  On an error the first one is stored as
`primaryError`; any later error sets `fallbackUsed = true`; either way the
loop continues to the next backend.  On success it returns the serving
backend together with the current `fallbackUsed` / `primaryError`. -/
def getFileLoop (r2Avail : Bool) (readOf : Backend → Except String Unit) :
    List Backend → Bool → Option String →
    Except (Option String) (Backend × Bool × Option String)
  | [], _, primaryError => .error primaryError
  | b :: rest, fallbackUsed, primaryError =>
    if b = Backend.r2 ∧ r2Avail = false then
      getFileLoop r2Avail readOf rest fallbackUsed primaryError
    else
      match readOf b with
      | .ok _ => .ok (b, fallbackUsed, primaryError)
      | .error e =>
        match primaryError with
        | none => getFileLoop r2Avail readOf rest fallbackUsed (some e)
        | some pe => getFileLoop r2Avail readOf rest true (some pe)

/-- Dispatch a read to the injected backend outcomes. -/
def readOf (r2Read localRead : Except String Unit) : Backend → Except String Unit
  | Backend.r2 => r2Read
  | Backend.loc => localRead

/-- `StorageManager.getFile(userId, filename, options)`.  The cache is
consulted (unless `forceLocal`), the search order computed by
`determineRetrievalOrder`, and the loop run; a success re-records the
serving location in the cache.  The `returnStream` option only selects a
different underlying call with identical error semantics, so the two
variants share one injected outcome per backend. -/
def getFile (configMode : StorageMode) (r2Avail : Bool)
    (r2Read localRead : Except String Unit) (cache : LocCache)
    (userId filename : String) (isAvatar forceLocal : Bool) (now : Nat) :
    Except GetError GetResult × LocCache :=
  if userId = "" then (.error (.validation "User ID is required for file retrieval"), cache)
  else if filename = "" then (.error (.validation "Filename is required"), cache)
  else
    let lookup :=
      if forceLocal then (none, cache)
      else getCachedFileLocation cache userId filename isAvatar now
    let searchOrder := determineRetrievalOrder lookup.1 forceLocal configMode
    match getFileLoop r2Avail (readOf r2Read localRead) searchOrder false none with
    | .ok (b, fallbackUsed, primaryError) =>
      (.ok ⟨b, fallbackUsed, primaryError⟩,
        cacheFileLocation lookup.2 userId filename isAvatar b now)
    | .error primaryError =>
      (.error (.notFound filename searchOrder primaryError), lookup.2)

/-- `StorageManager.getAvatar(userId, options)`: delegate to `getFile`
with the fixed filename `'avatar.png'` and `isAvatar = true`; an error
whose message includes `'File not found'` becomes `null`, everything else
is re-thrown. -/
def getAvatar (configMode : StorageMode) (r2Avail : Bool)
    (r2Read localRead : Except String Unit) (cache : LocCache)
    (userId : String) (forceLocal : Bool) (now : Nat) :
    Except GetError (Option GetResult) × LocCache :=
  match getFile configMode r2Avail r2Read localRead cache userId "avatar.png" true forceLocal now with
  | (.ok r, c) => (.ok (some r), c)
  | (.error e, c) =>
    if strIncludes e.message "File not found" then (.ok none, c)
    else (.error e, c)

/-- One entry of the per-backend outcome list built by
`StorageManager.deleteFile`. -/
structure DeleteOutcome where
  storage : Backend
  success : Bool
  err : Option String
deriving DecidableEq, Repr

/-- The object returned by `StorageManager.deleteFile`, together with the
cache after the `locationCache.delete` call. -/
structure DeleteResult where
  success : Bool
  results : List DeleteOutcome
  cache : LocCache
deriving DecidableEq, Repr

/-- `StorageManager.deleteFile(userId, filename, isAvatar)`.  `r2Avail`
models `await this.isR2Available()`; `r2Delete` / `localDelete` the
outcomes of the backend delete calls. -/
def deleteFile (r2Avail : Bool) (r2Delete localDelete : Except String Unit)
    (cache : LocCache) (userId filename : String) (isAvatar : Bool) :
    Except String DeleteResult :=
  if userId = "" ∨ filename = "" then
    .error "User ID and filename are required for file deletion"
  else
    let r2Part : List DeleteOutcome × Bool :=
      if r2Avail then
        match r2Delete with
        | .ok _ => ([⟨Backend.r2, true, none⟩], true)
        | .error e => ([⟨Backend.r2, false, some e⟩], false)
      else ([], false)
    let localPart : List DeleteOutcome × Bool :=
      match localDelete with
      | .ok _ => ([⟨Backend.loc, true, none⟩], true)
      | .error e => ([⟨Backend.loc, false, some e⟩], false)
    let cache2 := mapDelete cache (cacheKey userId filename isAvatar)
    .ok ⟨r2Part.2 || localPart.2, r2Part.1 ++ localPart.1, cache2⟩

/-- C1 counterexample: the claim says that under `r2-only` mode the
computed search order contains only the Remote backend regardless of the
cache hint, but with a Remote (`'r2'`) hint the code returns
`['r2', 'local']`, which also contains the Local backend. -/
theorem retrieval_order_hint_mode_counterexample :
    determineRetrievalOrder (some Backend.r2) false StorageMode.r2Only
      = [Backend.r2, Backend.loc]
    ∧ ¬ (∀ b ∈ determineRetrievalOrder (some Backend.r2) false StorageMode.r2Only,
          b = Backend.r2) := by
  decide

/-- C1 (amended): with `forceLocal` false, the search order is: no hint —
`r2-only → ['r2']`, `local-only → ['local']`, `hybrid → ['r2', 'local']`;
a hint for the backend a restricted mode forbids is overridden (`'local'`
hint under `r2-only` searches `['r2']` only, `'r2'` hint under
`local-only` searches `['local']` only); but a hint matching a restricted
mode's backend still appends the other backend (`'r2'` hint under
`r2-only` gives `['r2', 'local']`, `'local'` hint under `local-only`
gives `['local', 'r2']`); under `hybrid` the hinted backend comes first
followed by the other; `forceLocal` gives `['local']` in every case. -/
theorem retrieval_order_table :
    determineRetrievalOrder none false StorageMode.r2Only = [Backend.r2]
    ∧ determineRetrievalOrder none false StorageMode.localOnly = [Backend.loc]
    ∧ determineRetrievalOrder none false StorageMode.hybrid = [Backend.r2, Backend.loc]
    ∧ determineRetrievalOrder (some Backend.loc) false StorageMode.r2Only = [Backend.r2]
    ∧ determineRetrievalOrder (some Backend.r2) false StorageMode.localOnly = [Backend.loc]
    ∧ determineRetrievalOrder (some Backend.r2) false StorageMode.r2Only
        = [Backend.r2, Backend.loc]
    ∧ determineRetrievalOrder (some Backend.loc) false StorageMode.localOnly
        = [Backend.loc, Backend.r2]
    ∧ determineRetrievalOrder (some Backend.r2) false StorageMode.hybrid
        = [Backend.r2, Backend.loc]
    ∧ determineRetrievalOrder (some Backend.loc) false StorageMode.hybrid
        = [Backend.loc, Backend.r2]
    ∧ determineRetrievalOrder none true StorageMode.r2Only = [Backend.loc]
    ∧ determineRetrievalOrder none true StorageMode.localOnly = [Backend.loc]
    ∧ determineRetrievalOrder none true StorageMode.hybrid = [Backend.loc]
    ∧ determineRetrievalOrder (some Backend.r2) true StorageMode.r2Only = [Backend.loc]
    ∧ determineRetrievalOrder (some Backend.r2) true StorageMode.localOnly = [Backend.loc]
    ∧ determineRetrievalOrder (some Backend.r2) true StorageMode.hybrid = [Backend.loc]
    ∧ determineRetrievalOrder (some Backend.loc) true StorageMode.r2Only = [Backend.loc]
    ∧ determineRetrievalOrder (some Backend.loc) true StorageMode.localOnly = [Backend.loc]
    ∧ determineRetrievalOrder (some Backend.loc) true StorageMode.hybrid = [Backend.loc] := by
  decide

/-- C2: in `hybrid` mode with R2 available, an R2 read that fails with
not-found followed by a successful local read serves the file from the
second attempted backend, yet the returned result carries
`fallbackUsed = false`: the `fallbackUsed` variable is only ever set to
`true` on a second failed attempt, after the first error has been stored
as `primaryError`, so a successful read can never report a fallback —
contradicting the claimed "true iff not the first attempted backend". -/
theorem getFile_fallback_flag_stuck_false :
    determineRetrievalOrder none false StorageMode.hybrid = [Backend.r2, Backend.loc]
    ∧ (getFile StorageMode.hybrid true (.error "File not found: doc.pdf") (.ok ())
        [] "u1" "doc.pdf" false false 0).1
      = .ok ⟨Backend.loc, false, some "File not found: doc.pdf"⟩ := by
  exact ⟨by decide, rfl⟩

theorem mapSet_fresh (c : LocCache) (k : String) (v : CacheEntry)
    (h : k ∉ c.map Prod.fst) : mapSet c k v = c ++ [(k, v)] := by
  induction c with
  | nil => rfl
  | cons p t ih =>
    simp only [List.map_cons, List.mem_cons, not_or] at h
    rw [mapSet, if_neg (fun hpk => h.1 hpk.symm), ih h.2]
    rfl

theorem mapSet_length_le (c : LocCache) (k : String) (v : CacheEntry) :
    (mapSet c k v).length ≤ c.length + 1 := by
  induction c with
  | nil => simp [mapSet]
  | cons p t ih =>
    rw [mapSet]
    by_cases hpk : p.1 = k
    · simp [hpk]
    · simp only [if_neg hpk, List.length_cons]
      omega

theorem mapSet_length_fresh (c : LocCache) (k : String) (v : CacheEntry)
    (h : k ∉ c.map Prod.fst) : (mapSet c k v).length = c.length + 1 := by
  rw [mapSet_fresh c k v h]
  simp

theorem mapGet_mapSet (c : LocCache) (k : String) (v : CacheEntry) :
    mapGet (mapSet c k v) k = some v := by
  induction c with
  | nil => simp [mapSet, mapGet, List.find?]
  | cons p t ih =>
    rw [mapSet]
    by_cases hpk : p.1 = k
    · simp [hpk, mapGet, List.find?]
    · simpa [mapGet, List.find?, hpk] using ih

theorem mapGet_mapDelete_ne (c : LocCache) (k k2 : String) (h : k ≠ k2) :
    mapGet (mapDelete c k2) k = mapGet c k := by
  induction c with
  | nil => rfl
  | cons p t ih =>
    by_cases hpk : p.1 = k2
    · simpa [mapDelete, mapGet, List.filter, hpk, List.find?, Ne.symm h] using ih
    · by_cases hpk2 : p.1 = k
      · simp [mapDelete, mapGet, List.filter, hpk, List.find?, hpk2, h]
      · simpa [mapDelete, mapGet, List.filter, hpk, List.find?, hpk2] using ih

theorem mapDelete_key_not_mem (c : LocCache) (k : String) :
    k ∉ (mapDelete c k).map Prod.fst := by
  intro hmem
  obtain ⟨p, hp, hpk⟩ := List.mem_map.mp hmem
  have hkeep := List.of_mem_filter hp
  simp only [decide_eq_true_eq] at hkeep
  exact hkeep hpk

theorem cacheRecordKey_length_le (c : LocCache) (k : String) (v : CacheEntry)
    (hlen : c.length ≤ 1000) : (cacheRecordKey c k v).length ≤ 1000 := by
  rw [cacheRecordKey]
  have hle := mapSet_length_le c k v
  by_cases hbig : 1000 < (mapSet c k v).length
  · simp only [if_pos hbig]
    cases hc2 : mapSet c k v with
    | nil => simp [hc2] at hbig
    | cons p t =>
      rw [hc2] at hle
      have hmd : mapDelete (p :: t) p.1 = mapDelete t p.1 := by
        simp [mapDelete, List.filter_cons]
      have hdel : (mapDelete (p :: t) p.1).length ≤ t.length := by
        rw [hmd]
        exact List.length_filter_le _ t
      show (mapDelete (p :: t) p.1).length ≤ 1000
      simp only [List.length_cons] at hle
      omega
  · simp only [if_neg hbig]
    omega

theorem cacheRecordKey_fresh_small (c : LocCache) (k : String) (v : CacheEntry)
    (hk : k ∉ c.map Prod.fst) (hlen : c.length < 1000) :
    cacheRecordKey c k v = c ++ [(k, v)] := by
  rw [cacheRecordKey, mapSet_fresh c k v hk]
  have : ¬ 1000 < (c ++ [(k, v)]).length := by
    simp only [List.length_append, List.length_singleton]
    omega
  rw [if_neg this]

theorem cacheRecordKey_fresh_full (c : LocCache) (k : String) (v : CacheEntry)
    (hk : k ∉ c.map Prod.fst) (hnd : (c.map Prod.fst).Nodup)
    (hlen : c.length = 1000) :
    cacheRecordKey c k v = c.tail ++ [(k, v)] := by
  rw [cacheRecordKey, mapSet_fresh c k v hk]
  have hbig : 1000 < (c ++ [(k, v)]).length := by
    simp only [List.length_append, List.length_singleton]
    omega
  simp only [if_pos hbig]
  cases c with
  | nil => simp at hlen
  | cons p t =>
    simp only [List.map_cons, List.nodup_cons] at hnd
    simp only [List.map_cons, List.mem_cons, not_or] at hk
    have hfirst : (p :: t) ++ [(k, v)] = p :: (t ++ [(k, v)]) := rfl
    rw [hfirst]
    show mapDelete (p :: (t ++ [(k, v)])) p.1 = t ++ [(k, v)]
    rw [mapDelete, List.filter]
    rw [show (decide ¬ (p.1 = p.1)) = false by simp]
    rw [List.filter_eq_self.mpr]
    intro q hq
    rcases List.mem_append.mp hq with hqt | hqs
    · have : q.1 ∈ t.map Prod.fst := List.mem_map.mpr ⟨q, hqt, rfl⟩
      simp only [decide_eq_true_eq]
      intro hqp
      exact hnd.1 (hqp ▸ this)
    · simp only [List.mem_singleton] at hqs
      subst hqs
      simp only [decide_eq_true_eq]
      exact fun hkp => hk.1 hkp

theorem mapGet_cacheFileLocation (c : LocCache) (u f : String) (a : Bool)
    (l : Backend) (now : Nat) (hlen : c.length ≤ 1000) :
    mapGet (cacheFileLocation c u f a l now) (cacheKey u f a) = some ⟨l, now⟩ := by
  rw [cacheFileLocation, cacheRecordKey]
  set k := cacheKey u f a with hkdef
  by_cases hbig : 1000 < (mapSet c k ⟨l, now⟩).length
  · simp only [if_pos hbig]
    have hfresh : k ∉ c.map Prod.fst := by
      intro hmem
      have h1 : (mapSet c k ⟨l, now⟩).length ≤ c.length + 1 := mapSet_length_le c k _
      have h2 : c.length < (mapSet c k ⟨l, now⟩).length := by omega
      have h3 := mapSet_length_fresh c k ⟨l, now⟩
      by_cases hf : k ∈ c.map Prod.fst
      · -- when the key is present, mapSet preserves the length
        have : (mapSet c k ⟨l, now⟩).length = c.length := by
          clear h1 h2 h3 hbig hlen hmem
          induction c with
          | nil => simp at hf
          | cons p t ih =>
            rw [mapSet]
            by_cases hpk : p.1 = k
            · simp [hpk]
            · simp only [List.map_cons, List.mem_cons] at hf
              rcases hf with hf1 | hf2
              · exact absurd hf1.symm hpk
              · simp only [if_neg hpk, List.length_cons, ih hf2]
        omega
      · exact hf hmem
    rw [mapSet_fresh c k ⟨l, now⟩ hfresh] at hbig ⊢
    cases hc : c with
    | nil =>
      rw [hc] at hbig
      simp at hbig
    | cons p t =>
      have hpk : k ≠ p.1 := by
        intro hkp
        exact hfresh (hc ▸ List.mem_map.mpr ⟨p, by simp [hc], hkp.symm⟩)
      have : (p :: t) ++ [(k, ⟨l, now⟩)] = p :: (t ++ [(k, ⟨l, now⟩)]) := rfl
      rw [this]
      rw [mapGet_mapDelete_ne _ k p.1 hpk]
      have : p :: (t ++ [(k, (⟨l, now⟩ : CacheEntry))]) = mapSet (p :: t) k ⟨l, now⟩ := by
        rw [mapSet_fresh (p :: t) k ⟨l, now⟩ (hc ▸ hfresh)]
        rfl
      rw [this]
      exact mapGet_mapSet (p :: t) k ⟨l, now⟩
  · simp only [if_neg hbig]
    exact mapGet_mapSet c k ⟨l, now⟩

/-- Dispatch a put to the injected backend outcomes. -/
def putOf (r2Put localPut : Except String Unit) : Backend → Except String Unit
  | Backend.r2 => r2Put
  | Backend.loc => localPut

/-- C3: when the configured mode is not `hybrid` or the chosen primary
backend is not R2 (in particular under `r2-only` mode with an R2 put
failure), a failed primary `put` makes `uploadFile` propagate the original
error directly, with only the primary backend's `put` attempted; and a
fallback local `put` (attempt list `['r2', 'local']`) happens only when
the configured mode is `hybrid` and the primary was R2. -/
theorem upload_no_fallback_outside_hybrid_r2 :
    (∀ (configMode : StorageMode) (r2Avail : Bool) (r2Put localPut : Except String Unit)
       (cache : LocCache) (userId filename : String) (isAvatar forceLocal : Bool)
       (now : Nat) (primary : Backend) (pe : String),
       userId ≠ "" → filename ≠ "" →
       determineUploadStorage configMode r2Avail forceLocal = .ok primary →
       putOf r2Put localPut primary = .error pe →
       (configMode ≠ StorageMode.hybrid ∨ primary ≠ Backend.r2) →
       uploadFile configMode r2Avail r2Put localPut cache userId filename isAvatar forceLocal now
         = (.error (.err pe), [primary], cache))
    ∧ (∀ (configMode : StorageMode) (r2Avail : Bool) (r2Put localPut : Except String Unit)
       (cache : LocCache) (userId filename : String) (isAvatar forceLocal : Bool) (now : Nat),
       (uploadFile configMode r2Avail r2Put localPut cache userId filename isAvatar forceLocal now).2.1
         = [Backend.r2, Backend.loc] →
       configMode = StorageMode.hybrid
         ∧ determineUploadStorage configMode r2Avail forceLocal = .ok Backend.r2) := by
  constructor
  · intro configMode r2Avail r2Put localPut cache userId filename isAvatar forceLocal now
      primary pe hu hf hdet hput hmode
    cases primary with
    | r2 =>
      rcases hmode with hm | hm
      · simp only [putOf] at hput
        simp [uploadFile, hu, hf, hdet, hput, hm]
      · exact absurd rfl hm
    | loc =>
      simp only [putOf] at hput
      simp [uploadFile, hu, hf, hdet, hput]
  · intro configMode r2Avail r2Put localPut cache userId filename isAvatar forceLocal now h
    by_cases hu : userId = ""
    · simp [uploadFile, hu] at h
    by_cases hf : filename = ""
    · simp [uploadFile, hu, hf] at h
    cases hdet : determineUploadStorage configMode r2Avail forceLocal with
    | error e => simp [uploadFile, hu, hf, hdet] at h
    | ok b =>
      cases b with
      | r2 =>
        cases hput : r2Put with
        | ok u => simp [uploadFile, hu, hf, hdet, hput] at h
        | error pe =>
          by_cases hm : configMode = StorageMode.hybrid
          · exact ⟨hm, rfl⟩
          · simp [uploadFile, hu, hf, hdet, hput, hm] at h
      | loc =>
        cases hput : localPut with
        | ok u => simp [uploadFile, hu, hf, hdet, hput] at h
        | error pe => simp [uploadFile, hu, hf, hdet, hput] at h

/-- C3 witness: under `r2-only` mode with R2 available, a failed R2 put
propagates its error with no local put attempted. -/
theorem upload_no_fallback_outside_hybrid_r2_witness :
    ("u1" : String) ≠ ""
    ∧ ("doc.pdf" : String) ≠ ""
    ∧ determineUploadStorage StorageMode.r2Only true false = .ok Backend.r2
    ∧ putOf (.error "boom") (.ok ()) Backend.r2 = .error "boom"
    ∧ (StorageMode.r2Only ≠ StorageMode.hybrid ∨ Backend.r2 ≠ Backend.r2)
    ∧ uploadFile StorageMode.r2Only true (.error "boom") (.ok ()) [] "u1" "doc.pdf"
        false false 0
      = (.error (.err "boom"), [Backend.r2], []) :=
  ⟨by decide, by decide, rfl, rfl, Or.inl (by decide),
    upload_no_fallback_outside_hybrid_r2.1 StorageMode.r2Only true (.error "boom")
      (.ok ()) [] "u1" "doc.pdf" false false 0 Backend.r2 "boom" (by decide) (by decide)
      rfl rfl (Or.inl (by decide))⟩

/-- C4: under `hybrid` mode with R2 available, an R2 put failure followed
by a successful local put makes `uploadFile` return success with
`fallbackUsed = true`, the backend reported as local, the primary error
on the result, and the location cache entry for the key resolving to
local (immediately after, well inside the 5-minute TTL). -/
theorem upload_hybrid_fallback_success
    (r2Put localPut : Except String Unit) (cache : LocCache)
    (userId filename : String) (isAvatar : Bool) (now : Nat) (pe : String)
    (hu : userId ≠ "") (hf : filename ≠ "")
    (hr2 : r2Put = .error pe) (hloc : localPut = .ok ())
    (hcache : cache.length ≤ 1000) :
    uploadFile StorageMode.hybrid true r2Put localPut cache userId filename isAvatar false now
      = (.ok ⟨Backend.loc, true, some pe⟩, [Backend.r2, Backend.loc],
         cacheFileLocation cache userId filename isAvatar Backend.loc now)
    ∧ (getCachedFileLocation
        (cacheFileLocation cache userId filename isAvatar Backend.loc now)
        userId filename isAvatar now).1 = some Backend.loc := by
  constructor
  · simp [uploadFile, hu, hf, hr2, hloc, determineUploadStorage]
  · simp only [getCachedFileLocation]
    rw [mapGet_cacheFileLocation cache userId filename isAvatar Backend.loc now hcache]
    simp

/-- C4 witness at a concrete upload. -/
theorem upload_hybrid_fallback_success_witness :
    (("u1" : String) ≠ "" ∧ ("doc.pdf" : String) ≠ ""
      ∧ (Except.error "boom" : Except String Unit) = .error "boom"
      ∧ (Except.ok () : Except String Unit) = .ok ()
      ∧ ([] : LocCache).length ≤ 1000)
    ∧ (uploadFile StorageMode.hybrid true (.error "boom") (.ok ()) [] "u1" "doc.pdf"
        false false 7
        = (.ok ⟨Backend.loc, true, some "boom"⟩, [Backend.r2, Backend.loc],
           cacheFileLocation [] "u1" "doc.pdf" false Backend.loc 7)
      ∧ (getCachedFileLocation (cacheFileLocation [] "u1" "doc.pdf" false Backend.loc 7)
          "u1" "doc.pdf" false 7).1 = some Backend.loc) :=
  ⟨⟨by decide, by decide, rfl, rfl, by decide⟩,
    upload_hybrid_fallback_success (.error "boom") (.ok ()) [] "u1" "doc.pdf" false 7
      "boom" (by decide) (by decide) rfl rfl (by decide)⟩

/-- The arguments of one `cacheFileLocation` call. -/
structure CacheRecordInput where
  userId : String
  filename : String
  isAvatar : Bool
  location : Backend
  now : Nat
deriving DecidableEq, Repr

/-- One record operation on the cache. -/
def cacheStep (c : LocCache) (r : CacheRecordInput) : LocCache :=
  cacheFileLocation c r.userId r.filename r.isAvatar r.location r.now

/-- The cache key a record operation writes under. -/
def keyOf (r : CacheRecordInput) : String :=
  cacheKey r.userId r.filename r.isAvatar

/-- The map entry a record operation writes. -/
def entryOf (r : CacheRecordInput) : String × CacheEntry :=
  (keyOf r, ⟨r.location, r.now⟩)

theorem foldl_cacheStep_fresh (rs : List CacheRecordInput) :
    ∀ (c : LocCache),
      (c.map Prod.fst ++ rs.map keyOf).Nodup →
      c.length + rs.length ≤ 1000 →
      rs.foldl cacheStep c = c ++ rs.map entryOf := by
  induction rs with
  | nil => intro c _ _; simp
  | cons r rest ih =>
    intro c hnd hlen
    have hfresh : keyOf r ∉ c.map Prod.fst := by
      intro hmem
      rw [List.nodup_append] at hnd
      exact hnd.2.2 hmem (by simp)
    have hsmall : c.length < 1000 := by
      simp only [List.length_cons] at hlen
      omega
    have hstep : cacheStep c r = c ++ [entryOf r] := by
      exact cacheRecordKey_fresh_small c (keyOf r) ⟨r.location, r.now⟩ hfresh hsmall
    rw [List.foldl_cons, hstep, ih (c ++ [entryOf r]) ?_ ?_]
    · simp
    · have heq : (c ++ [entryOf r]).map Prod.fst ++ rest.map keyOf
          = c.map Prod.fst ++ (keyOf r :: rest.map keyOf) := by
        simp [entryOf]
      rw [heq]
      simpa using hnd
    · simp only [List.length_append, List.length_singleton, List.length_cons,
        List.length_nil] at hlen ⊢
      omega

/-- C5: (1) a record operation never leaves the location cache with more
than 1000 entries (given it was within bounds before); and (2) recording
1001 distinct keys into an initially empty cache leaves exactly 1000
entries, with the very first inserted key evicted (FIFO, by insertion
order) and the 1001st key present. -/
theorem location_cache_bound_and_fifo
    (init : List CacheRecordInput) (lastRec : CacheRecordInput)
    (hlen : init.length = 1000)
    (hnd : ((init ++ [lastRec]).map keyOf).Nodup) :
    (∀ (c : LocCache) (u f : String) (a : Bool) (l : Backend) (t : Nat),
        c.length ≤ 1000 → (cacheFileLocation c u f a l t).length ≤ 1000)
    ∧ ((init ++ [lastRec]).foldl cacheStep []).length = 1000
    ∧ (∀ r0 ∈ init.head?, keyOf r0 ∉ ((init ++ [lastRec]).foldl cacheStep []).map Prod.fst)
    ∧ keyOf lastRec ∈ ((init ++ [lastRec]).foldl cacheStep []).map Prod.fst := by
  have hbound : ∀ (c : LocCache) (u f : String) (a : Bool) (l : Backend) (t : Nat),
      c.length ≤ 1000 → (cacheFileLocation c u f a l t).length ≤ 1000 :=
    fun c u f a l t h => cacheRecordKey_length_le c _ _ h
  rw [show ((init ++ [lastRec]).map keyOf) = init.map keyOf ++ [keyOf lastRec] by simp] at hnd
  rw [List.nodup_append] at hnd
  have hinit : init.foldl cacheStep [] = init.map entryOf := by
    have h := foldl_cacheStep_fresh init [] (by simpa using hnd.1) (by simp [hlen])
    simpa using h
  have hkeys : (init.map entryOf).map Prod.fst = init.map keyOf := by
    simp [entryOf]
  have hlast_fresh : keyOf lastRec ∉ (init.map entryOf).map Prod.fst := by
    rw [hkeys]
    intro hmem
    exact hnd.2.2 hmem (by simp)
  have hfoldall : (init ++ [lastRec]).foldl cacheStep []
      = (init.map entryOf).tail ++ [entryOf lastRec] := by
    rw [List.foldl_append, hinit]
    show cacheStep (init.map entryOf) lastRec = _
    exact cacheRecordKey_fresh_full (init.map entryOf) (keyOf lastRec)
      ⟨lastRec.location, lastRec.now⟩ hlast_fresh (hkeys ▸ hnd.1) (by simp [hlen])
  refine ⟨hbound, ?_, ?_, ?_⟩
  · rw [hfoldall]
    simp only [List.length_append, List.length_tail, List.length_map,
      List.length_singleton, hlen]
  · intro r0 hr0
    cases init with
    | nil => simp at hlen
    | cons a t =>
      have hr0a : a = r0 := by simpa using hr0
      subst hr0a
      rw [hfoldall]
      have htail : (List.map entryOf (a :: t)).tail = List.map entryOf t := by simp
      rw [htail]
      intro hmem
      rw [List.map_append, List.mem_append] at hmem
      have hkt : (List.map entryOf t).map Prod.fst = t.map keyOf := by simp [entryOf]
      rcases hmem with hmem | hmem
      · rw [hkt] at hmem
        have hnda := hnd.1
        rw [List.map_cons, List.nodup_cons] at hnda
        exact hnda.1 hmem
      · simp only [List.map_singleton, List.mem_singleton] at hmem
        have hina : keyOf a ∈ List.map keyOf (a :: t) := by simp
        have hdis := hnd.2.2 hina
        rw [entryOf] at hmem
        exact hdis (by simp [hmem])
  · rw [hfoldall]
    simp [entryOf]

/-- A family of record inputs with pairwise distinct cache keys: the
`n`-th record uses a user id of `n` repeated characters. -/
def c5Record (n : Nat) : CacheRecordInput :=
  ⟨String.mk (List.replicate n 'a'), "f", false, Backend.loc, 0⟩

/-- The first 1000 records of the C5 witness scenario. -/
def c5Init : List CacheRecordInput := (List.range 1000).map c5Record

/-- The 1001st record of the C5 witness scenario. -/
def c5Last : CacheRecordInput := c5Record 1000

theorem c5Record_key_inj : Function.Injective (fun n => keyOf (c5Record n)) := by
  intro n m h
  have hdata := congrArg String.data h
  simp only [keyOf, c5Record, cacheKey] at hdata
  have hlen := congrArg List.length hdata
  simp only [String.data_append, List.length_append, List.length_replicate] at hlen
  omega

theorem c5Init_length : c5Init.length = 1000 := by
  simp [c5Init]

theorem c5_keys_nodup : ((c5Init ++ [c5Last]).map keyOf).Nodup := by
  have h1 : (c5Init ++ [c5Last]).map keyOf
      = (List.range 1001).map (fun n => keyOf (c5Record n)) := by
    rw [show (1001 : Nat) = 1000 + 1 from rfl, List.range_succ]
    simp [c5Init, c5Last, List.map_map, Function.comp]
  rw [h1]
  exact (List.nodup_range 1001).map c5Record_key_inj

/-- C5 witness: the scenario instantiated with 1001 records with
pairwise-distinct keys. -/
theorem location_cache_bound_and_fifo_witness :
    (c5Init.length = 1000 ∧ ((c5Init ++ [c5Last]).map keyOf).Nodup)
    ∧ ((∀ (c : LocCache) (u f : String) (a : Bool) (l : Backend) (t : Nat),
          c.length ≤ 1000 → (cacheFileLocation c u f a l t).length ≤ 1000)
      ∧ ((c5Init ++ [c5Last]).foldl cacheStep []).length = 1000
      ∧ (∀ r0 ∈ c5Init.head?, keyOf r0 ∉ ((c5Init ++ [c5Last]).foldl cacheStep []).map Prod.fst)
      ∧ keyOf c5Last ∈ ((c5Init ++ [c5Last]).foldl cacheStep []).map Prod.fst) :=
  ⟨⟨c5Init_length, c5_keys_nodup⟩,
    location_cache_bound_and_fifo c5Init c5Last c5Init_length c5_keys_nodup⟩

/-- C6: the retry wrapper throws a terminal-class error immediately with
no further attempt and no backoff sleep; a retryable error is retried up
to 3 total attempts with sleeps of `1000 * 2^(attempt-1)` ms (1000 then
2000) between attempts, and after exhaustion the last error surfaces. -/
theorem retry_terminal_and_backoff :
    (∀ (α : Type) (op : Nat → Except JsError α) (e : JsError),
       op 1 = .error e → nonRetryableErrors.contains e.name = true →
       retryOperation op 3 1000 = (.error e, []))
    ∧ (∀ (α : Type) (op : Nat → Except JsError α) (e1 e2 e3 : JsError),
       op 1 = .error e1 → op 2 = .error e2 → op 3 = .error e3 →
       nonRetryableErrors.contains e1.name = false →
       nonRetryableErrors.contains e2.name = false →
       nonRetryableErrors.contains e3.name = false →
       retryOperation op 3 1000 = (.error e3, [1000, 2000])) := by
  constructor
  · intro α op e h1 hterm
    have hm : e.name ∈ nonRetryableErrors := by simpa using hterm
    simp [retryOperation, retryGo, h1, hm]
  · intro α op e1 e2 e3 h1 h2 h3 ht1 ht2 ht3
    have hm1 : e1.name ∉ nonRetryableErrors := by simpa using ht1
    have hm2 : e2.name ∉ nonRetryableErrors := by simpa using ht2
    have hm3 : e3.name ∉ nonRetryableErrors := by simpa using ht3
    simp [retryOperation, retryGo, h1, h2, h3, hm1, hm2, hm3]

/-- C6 witness: a `NoSuchKey` error fails immediately; a retryable
timeout-style error is retried with backoff 1000 ms then 2000 ms. -/
theorem retry_terminal_and_backoff_witness :
    ((fun _ => .error ⟨"NoSuchKey", "gone"⟩ : Nat → Except JsError Unit) 1
        = .error ⟨"NoSuchKey", "gone"⟩
      ∧ nonRetryableErrors.contains "NoSuchKey" = true
      ∧ retryOperation (fun _ => .error ⟨"NoSuchKey", "gone"⟩ : Nat → Except JsError Unit)
          3 1000 = (.error ⟨"NoSuchKey", "gone"⟩, []))
    ∧ ((fun _ => .error ⟨"TimeoutError", "t"⟩ : Nat → Except JsError Unit) 1
        = .error ⟨"TimeoutError", "t"⟩
      ∧ nonRetryableErrors.contains "TimeoutError" = false
      ∧ retryOperation (fun _ => .error ⟨"TimeoutError", "t"⟩ : Nat → Except JsError Unit)
          3 1000 = (.error ⟨"TimeoutError", "t"⟩, [1000, 2000])) :=
  ⟨⟨rfl, by decide,
    retry_terminal_and_backoff.1 Unit (fun _ => .error ⟨"NoSuchKey", "gone"⟩)
      ⟨"NoSuchKey", "gone"⟩ rfl (by decide)⟩,
   ⟨rfl, by decide,
    retry_terminal_and_backoff.2 Unit (fun _ => .error ⟨"TimeoutError", "t"⟩)
      ⟨"TimeoutError", "t"⟩ ⟨"TimeoutError", "t"⟩ ⟨"TimeoutError", "t"⟩ rfl rfl rfl
      (by decide) (by decide) (by decide)⟩⟩

/-- C7: with non-empty user id and filename, `deleteFile` attempts the R2
delete exactly when R2 is available and always attempts the local delete,
independently of the R2 outcome; the overall `success` flag holds iff some
attempted backend succeeded; and the location-cache entry for the key is
removed regardless of the outcomes. -/
theorem delete_best_effort_both_backends
    (r2Avail : Bool) (r2Delete localDelete : Except String Unit)
    (cache : LocCache) (userId filename : String) (isAvatar : Bool)
    (hu : userId ≠ "") (hf : filename ≠ "") :
    ∃ res : DeleteResult,
      deleteFile r2Avail r2Delete localDelete cache userId filename isAvatar = .ok res
      ∧ res.results.map (fun o => o.storage)
          = (if r2Avail then [Backend.r2, Backend.loc] else [Backend.loc])
      ∧ (res.success = true ↔ ∃ o ∈ res.results, o.success = true)
      ∧ res.cache = mapDelete cache (cacheKey userId filename isAvatar)
      ∧ cacheKey userId filename isAvatar ∉ res.cache.map Prod.fst := by
  have hval : ¬ (userId = "" ∨ filename = "") := by
    rintro (h | h)
    · exact hu h
    · exact hf h
  cases r2Avail with
  | false =>
    cases localDelete with
    | ok v =>
      exact ⟨⟨true, [⟨Backend.loc, true, none⟩],
          mapDelete cache (cacheKey userId filename isAvatar)⟩,
        by simp [deleteFile, hval], by simp, by simp, rfl,
        mapDelete_key_not_mem cache (cacheKey userId filename isAvatar)⟩
    | error e2 =>
      exact ⟨⟨false, [⟨Backend.loc, false, some e2⟩],
          mapDelete cache (cacheKey userId filename isAvatar)⟩,
        by simp [deleteFile, hval], by simp, by simp, rfl,
        mapDelete_key_not_mem cache (cacheKey userId filename isAvatar)⟩
  | true =>
    cases r2Delete with
    | ok u =>
      cases localDelete with
      | ok v =>
        exact ⟨⟨true, [⟨Backend.r2, true, none⟩, ⟨Backend.loc, true, none⟩],
            mapDelete cache (cacheKey userId filename isAvatar)⟩,
          by simp [deleteFile, hval], by simp, by simp, rfl,
          mapDelete_key_not_mem cache (cacheKey userId filename isAvatar)⟩
      | error e2 =>
        exact ⟨⟨true, [⟨Backend.r2, true, none⟩, ⟨Backend.loc, false, some e2⟩],
            mapDelete cache (cacheKey userId filename isAvatar)⟩,
          by simp [deleteFile, hval], by simp, by simp, rfl,
          mapDelete_key_not_mem cache (cacheKey userId filename isAvatar)⟩
    | error e1 =>
      cases localDelete with
      | ok v =>
        exact ⟨⟨true, [⟨Backend.r2, false, some e1⟩, ⟨Backend.loc, true, none⟩],
            mapDelete cache (cacheKey userId filename isAvatar)⟩,
          by simp [deleteFile, hval], by simp, by simp, rfl,
          mapDelete_key_not_mem cache (cacheKey userId filename isAvatar)⟩
      | error e2 =>
        exact ⟨⟨false, [⟨Backend.r2, false, some e1⟩, ⟨Backend.loc, false, some e2⟩],
            mapDelete cache (cacheKey userId filename isAvatar)⟩,
          by simp [deleteFile, hval], by simp, by simp, rfl,
          mapDelete_key_not_mem cache (cacheKey userId filename isAvatar)⟩

/-- C7 witness: R2 available but its delete fails, local delete
succeeds. -/
theorem delete_best_effort_both_backends_witness :
    ("u1" : String) ≠ "" ∧ ("doc.pdf" : String) ≠ ""
    ∧ ∃ res : DeleteResult,
        deleteFile true (.error "boom") (.ok ()) [("x", ⟨Backend.r2, 0⟩)] "u1" "doc.pdf" false
          = .ok res
        ∧ res.results.map (fun o => o.storage)
            = (if true then [Backend.r2, Backend.loc] else [Backend.loc])
        ∧ (res.success = true ↔ ∃ o ∈ res.results, o.success = true)
        ∧ res.cache = mapDelete [("x", ⟨Backend.r2, 0⟩)] (cacheKey "u1" "doc.pdf" false)
        ∧ cacheKey "u1" "doc.pdf" false ∉ res.cache.map Prod.fst :=
  ⟨by decide, by decide,
    delete_best_effort_both_backends true (.error "boom") (.ok ())
      [("x", ⟨Backend.r2, 0⟩)] "u1" "doc.pdf" false (by decide) (by decide)⟩

/-- C8: (1) with a prior check recorded and `now - lastCheckedAt` strictly
below the 60-second interval, `isR2Available` returns the cached value,
leaves the state unchanged, and issues no probe; (2) once the interval has
elapsed, the next call (with R2 configured) issues a probe and records its
result and timestamp; (3) starting from a never-checked state, two calls
within the interval trigger exactly one probe — the first call probes, the
second serves the cached value without probing. -/
theorem availability_check_time_boxed :
    (∀ (st : AvailState) (cfg : Bool) (probe : Except String Bool) (now t : Nat),
       st.lastR2Check = some t → t ≠ 0 → now - t < r2CheckInterval →
       isR2Available st cfg probe now = ⟨st.r2Available, st, false⟩)
    ∧ (∀ (st : AvailState) (probe : Except String Bool) (now t : Nat) (b : Bool),
       st.lastR2Check = some t → r2CheckInterval ≤ now - t → probe = .ok b →
       isR2Available st true probe now = ⟨b, ⟨b, some now⟩, true⟩)
    ∧ (∀ (t0 t1 : Nat) (b : Bool) (probe2 : Except String Bool),
       t0 ≠ 0 → t1 - t0 < r2CheckInterval →
       (isR2Available ⟨false, none⟩ true (.ok b) t0).probed = true
       ∧ (isR2Available (isR2Available ⟨false, none⟩ true (.ok b) t0).state
            true probe2 t1).probed = false
       ∧ (isR2Available (isR2Available ⟨false, none⟩ true (.ok b) t0).state
            true probe2 t1).value = b) := by
  refine ⟨?_, ?_, ?_⟩
  · intro st cfg probe now t hlast ht hlt
    simp [isR2Available, hlast, ht, hlt]
  · intro st probe now t b hlast hge hprobe
    have hcond : ¬ (t ≠ 0 ∧ now - t < r2CheckInterval) := by
      rintro ⟨-, hlt⟩
      omega
    simp [isR2Available, isR2Available.isR2AvailableFresh, hlast, hcond, hprobe]
  · intro t0 t1 b probe2 ht0 hlt
    have h1 : isR2Available ⟨false, none⟩ true (.ok b) t0 = ⟨b, ⟨b, some t0⟩, true⟩ := by
      simp [isR2Available, isR2Available.isR2AvailableFresh]
    refine ⟨by rw [h1], ?_, ?_⟩
    · rw [h1]
      simp [isR2Available, ht0, hlt]
    · rw [h1]
      simp [isR2Available, ht0, hlt]

/-- C8 witness: first probe at time 5, cached reuse at time 6, and a
fresh-probe instance after the interval elapses. -/
theorem availability_check_time_boxed_witness :
    ((5 : Nat) ≠ 0 ∧ (6 : Nat) - 5 < r2CheckInterval
      ∧ ((isR2Available ⟨false, none⟩ true (.ok true) 5).probed = true
        ∧ (isR2Available (isR2Available ⟨false, none⟩ true (.ok true) 5).state
             true (.ok false) 6).probed = false
        ∧ (isR2Available (isR2Available ⟨false, none⟩ true (.ok true) 5).state
             true (.ok false) 6).value = true))
    ∧ ((⟨true, some 5⟩ : AvailState).lastR2Check = some 5
      ∧ r2CheckInterval ≤ 70000 - 5
      ∧ (Except.ok false : Except String Bool) = .ok false
      ∧ isR2Available ⟨true, some 5⟩ true (.ok false) 70000
          = ⟨false, ⟨false, some 70000⟩, true⟩) :=
  ⟨⟨by decide, by decide,
    availability_check_time_boxed.2.2 5 6 true (.ok false) (by decide) (by decide)⟩,
   ⟨rfl, by decide, rfl,
    availability_check_time_boxed.2.1 ⟨true, some 5⟩ (.ok false) 70000 5 false rfl
      (by decide) rfl⟩⟩

/-- C9 counterexample: the claim's consequence that an upload key contains
no `/` beyond the single user-folder separator fails when the user id
itself contains a `/`: only the filename is sanitized, so the key for
user id `"a/b"` and filename `"x"` is `"user-a/b/x"`, with two slashes. -/
theorem file_key_slash_counterexample :
    generateFileKey "a/b" "x" false = .ok "user-a/b/x"
    ∧ countChar "user-a/b/x" '/' = 2 := by
  constructor
  · rfl
  · decide

theorem countChar_append (s t : String) (c : Char) :
    countChar (s ++ t) c = countChar s c + countChar t c := by
  simp [countChar, String.data_append, List.count_append]

theorem sanitize_no_slash (f : String) : countChar (sanitizeFilename f) '/' = 0 := by
  rw [countChar, sanitizeFilename]
  refine List.count_eq_zero.mpr ?_
  intro hmem
  obtain ⟨c, hc, hstep⟩ := List.mem_map.mp hmem
  by_cases hik : isAllowedKeyChar c = true
  · rw [if_pos hik] at hstep
    rw [hstep] at hik
    simp [isAllowedKeyChar] at hik
  · rw [if_neg hik] at hstep
    simp at hstep

/-- C9 (amended): the remote object key is always
`user-{userId}/{filename-part}` — for avatars the part is the fixed
`avatar.png`, for uploads it is the filename with every character outside
ASCII letters, digits, `.` and `-` replaced by `_`.  The sanitized
filename part contains no `/`; the full key contains exactly one `/`
provided the user id itself contains none (the user id is not sanitized,
so a `/` inside it adds further slashes). -/
theorem file_key_format (u f : String) (hu : u ≠ "") :
    generateFileKey u f true = .ok ("user-" ++ u ++ "/" ++ "avatar.png")
    ∧ generateFileKey u f false = .ok ("user-" ++ u ++ "/" ++ sanitizeFilename f)
    ∧ countChar (sanitizeFilename f) '/' = 0
    ∧ (countChar u '/' = 0 →
        countChar ("user-" ++ u ++ "/" ++ sanitizeFilename f) '/' = 1) := by
  refine ⟨?_, ?_, sanitize_no_slash f, ?_⟩
  · simp [generateFileKey, getUserFolderPath, hu]
  · simp [generateFileKey, getUserFolderPath, hu]
  · intro huslash
    rw [countChar_append, countChar_append, countChar_append, huslash,
      sanitize_no_slash f]
    decide

/-- C9 witness at user id `u1` and filename `a b.pdf`. -/
theorem file_key_format_witness :
    ("u1" : String) ≠ ""
    ∧ (generateFileKey "u1" "a b.pdf" true = .ok ("user-" ++ "u1" ++ "/" ++ "avatar.png")
      ∧ generateFileKey "u1" "a b.pdf" false
          = .ok ("user-" ++ "u1" ++ "/" ++ sanitizeFilename "a b.pdf")
      ∧ countChar (sanitizeFilename "a b.pdf") '/' = 0
      ∧ (countChar "u1" '/' = 0 →
          countChar ("user-" ++ "u1" ++ "/" ++ sanitizeFilename "a b.pdf") '/' = 1)) :=
  ⟨by decide, file_key_format "u1" "a b.pdf" (by decide)⟩

theorem getFileLoop_all_fail (r2Avail : Bool) (m1 m2 : String) :
    ∀ (order : List Backend) (fb : Bool) (pe : Option String),
      ∃ pe2, getFileLoop r2Avail (readOf (.error m1) (.error m2)) order fb pe
        = .error pe2 := by
  intro order
  induction order with
  | nil => intro fb pe; exact ⟨pe, rfl⟩
  | cons b rest ih =>
    intro fb pe
    cases b with
    | r2 =>
      by_cases hA : r2Avail = false
      · simpa [getFileLoop, hA] using ih fb pe
      · cases pe with
        | none => simpa [getFileLoop, hA, readOf] using ih fb (some m1)
        | some pe2 => simpa [getFileLoop, hA, readOf] using ih true (some pe2)
    | loc =>
      cases pe with
      | none => simpa [getFileLoop, readOf] using ih fb (some m2)
      | some pe2 => simpa [getFileLoop, readOf] using ih true (some pe2)

theorem getFile_all_fail (mode : StorageMode) (r2Avail : Bool) (m1 m2 : String)
    (cache : LocCache) (u f : String) (a fL : Bool) (now : Nat)
    (hu : u ≠ "") (hf : f ≠ "") :
    ∃ order pe2 c2,
      getFile mode r2Avail (.error m1) (.error m2) cache u f a fL now
        = (.error (.notFound f order pe2), c2) := by
  simp only [getFile, if_neg hu, if_neg hf]
  obtain ⟨pe2, hloop⟩ := getFileLoop_all_fail r2Avail m1 m2
    (determineRetrievalOrder
      (if fL then ((none : Option Backend), cache)
       else getCachedFileLocation cache u f a now).1 fL mode) false none
  rw [hloop]
  exact ⟨_, pe2, _, rfl⟩

/-- C10: (1) when the underlying read fails on every backend of the search
order (in particular when the avatar is absent everywhere, each read
failing with a file-not-found error), `getAvatar` returns `null` instead
of propagating the error; (2) any `getFile` error whose message does not
include `'File not found'` is propagated by `getAvatar` unchanged. -/
theorem avatar_notfound_null :
    (∀ (mode : StorageMode) (r2Avail : Bool) (m1 m2 : String) (cache : LocCache)
       (u : String) (fL : Bool) (now : Nat), u ≠ "" →
       ∃ c2, getAvatar mode r2Avail (.error m1) (.error m2) cache u fL now
         = (.ok none, c2))
    ∧ (∀ (mode : StorageMode) (r2Avail : Bool) (rr lr : Except String Unit)
       (cache : LocCache) (u : String) (fL : Bool) (now : Nat) (e : GetError)
       (c2 : LocCache),
       getFile mode r2Avail rr lr cache u "avatar.png" true fL now = (.error e, c2) →
       strIncludes e.message "File not found" = false →
       getAvatar mode r2Avail rr lr cache u fL now = (.error e, c2)) := by
  constructor
  · intro mode r2Avail m1 m2 cache u fL now hu
    obtain ⟨order, pe2, c2, hgf⟩ := getFile_all_fail mode r2Avail m1 m2 cache u
      "avatar.png" true fL now hu (by decide)
    refine ⟨c2, ?_⟩
    have hinc : strIncludes (GetError.message (.notFound "avatar.png" order pe2))
        "File not found" = true := by rfl
    simp [getAvatar, hgf, hinc]
  · intro mode r2Avail rr lr cache u fL now e c2 hgf hinc
    simp [getAvatar, hgf, hinc]

/-- C10 witness: both backends report the avatar missing; `getAvatar`
yields `null`. -/
theorem avatar_notfound_null_witness :
    ("u1" : String) ≠ ""
    ∧ ∃ c2, getAvatar StorageMode.hybrid true (.error "File not found: avatar.png")
        (.error "File not found: avatar.png") [] "u1" false 0 = (.ok none, c2) :=
  ⟨by decide,
    avatar_notfound_null.1 StorageMode.hybrid true "File not found: avatar.png"
      "File not found: avatar.png" [] "u1" false 0 (by decide)⟩
